import Mathlib

/-!
Shallow embedding of the mini-rdbms engine (Go) and proofs about its
specification claims.

The embedding follows the Go sources:
  db/types/datatypes.go    — Value, DataType, Compare, AsInt, AsText
  db/schema (part_005)     — ColumnDef, TableDef and its lookup helpers
  db/index (part_002)      — HashIndex
  db/storage (part_003/4)  — Row, Table, Insert/Update/Delete/Scan/IndexLookup
  db/engine/evaluator.go   — Evaluate
  db/engine/planner.go     — plan nodes, planSelect, CreatePlan
  db/engine (part_001)     — execCreate, execUpdate, applyUpdate, execDelete
  db/parser/tokenizer.go   — tokens, parseUpdate, parseDelete, parseWhere

Go maps (map[interface{}]V, map[string]V) are modelled as association lists
with first-match lookup; Go's unspecified map iteration order is made explicit
as an `order` argument (a permutation of the keys) wherever the code ranges
over a map.  Go's dynamic `interface{}` cell payloads are modelled by `GoVal`
(the engine only ever stores int and string payloads through the parser and
the DML path; the float64 artifact of JSON loading is outside the modelled
scope).  A Go panic (out-of-range index, nil dereference) is modelled as an
error result on the same operation; these branches are unreachable for the
schema-aligned states the theorems quantify over.
-/

namespace MiniRDBMS

/-- Raw dynamic value stored in a cell (Go `interface{}` payload). -/
inductive GoVal where
  | vInt (n : Int)
  | vStr (s : String)
deriving DecidableEq, Repr

/-- db/types/datatypes.go: DataType with constants TypeInt, TypeText. -/
inductive DataType where
  | INT
  | TEXT
deriving DecidableEq, Repr

/-- db/types/datatypes.go: Value{Type, Val}. -/
structure Value where
  type : DataType
  val : GoVal
deriving DecidableEq, Repr

/-- Value.AsInt: (result, error); Go ignores the error at most call sites. -/
def Value.asInt (v : Value) : Int × Option String :=
  match v.type, v.val with
  | .INT, .vInt n => (n, none)
  | .INT, _ => (0, some "val is not int")
  | _, _ => (0, some "not an INT")

/-- Value.AsText: (result, error). -/
def Value.asText (v : Value) : String × Option String :=
  match v.type, v.val with
  | .TEXT, .vStr s => (s, none)
  | .TEXT, _ => ("", some "val is not string")
  | _, _ => ("", some "not a TEXT")

/-- Value.Compare: returns (-1|0|1, nil) for same-typed values and
(0, error) on a type mismatch.  Callers that discard the error therefore
see 0 — i.e. "equal" — for a type mismatch. -/
def Value.compare (v other : Value) : Int × Option String :=
  if v.type ≠ other.type then
    (0, some ("type mismatch"))
  else
    match v.type with
    | .INT =>
      let i1 := (v.asInt).1
      let i2 := (other.asInt).1
      (if i1 < i2 then -1 else if i1 > i2 then 1 else 0, none)
    | .TEXT =>
      let s1 := (v.asText).1
      let s2 := (other.asText).1
      (if s1 < s2 then -1 else if s1 > s2 then 1 else 0, none)

/-- db/schema: ColumnDef. -/
structure ColumnDef where
  name : String
  type : DataType
  isPrimary : Bool
  isUnique : Bool
deriving DecidableEq, Repr

/-- db/schema: TableDef (ForeignKeys are advisory metadata unused by the
claims modelled here and are omitted). -/
structure TableDef where
  name : String
  columns : List ColumnDef
deriving DecidableEq, Repr

/-- TableDef.GetColumn: first column with the given name. -/
def TableDef.getColumn (t : TableDef) (name : String) : Option ColumnDef :=
  t.columns.find? (fun c => c.name == name)

/-- TableDef.GetPrimaryKey: first column flagged primary. -/
def TableDef.getPrimaryKey (t : TableDef) : Option ColumnDef :=
  t.columns.find? (fun c => c.isPrimary)

/-- TableDef.GetColumnIndex: position of the first column with the given
name; Go returns -1 when absent, modelled as `none`. -/
def TableDef.getColumnIndex (t : TableDef) (name : String) : Option Nat :=
  t.columns.findIdx? (fun c => c.name == name)

/-- db/storage (part_004): Row. -/
structure Row where
  values : List Value
deriving DecidableEq, Repr

/-- db/parser (AST): expression tree of the WHERE clause. -/
inductive Expression where
  | comparisonExpr (column : String) (operator : String) (value : Value)
  | infixExpr (left : Expression) (operator : String) (right : Expression)
deriving DecidableEq, Repr

/-- db/engine/evaluator.go Evaluate, on a non-nil expression.  The "="
branch discards the error component of Value.Compare and tests `cmp == 0`.
An out-of-range row access (where Go would panic) yields false; it is
unreachable for rows aligned with the schema. -/
def evaluateExpr (e : Expression) (row : Row) (td : TableDef) : Bool :=
  match e with
  | .comparisonExpr column operator value =>
    match td.getColumnIndex column with
    | none => false
    | some idx =>
      match row.values.get? idx with
      | none => false
      | some val =>
        match operator with
        | "=" => (val.compare value).1 == 0
        | _ => false
  | .infixExpr l operator r =>
    let left := evaluateExpr l row td
    let right := evaluateExpr r row td
    match operator with
    | "AND" => left && right
    | "OR" => left || right
    | _ => false

/-- Evaluate including the nil-expression case (nil evaluates to true). -/
def evaluate : Option Expression → Row → TableDef → Bool
  | none, _, _ => true
  | some e, row, td => evaluateExpr e row td

/-! ### Association lists: the model of Go maps -/

/-- Go map read m[k]: first binding for the key. -/
def lookupA {α β : Type} [DecidableEq α] : List (α × β) → α → Option β
  | [], _ => none
  | (k2, v) :: rest, k => if k2 = k then some v else lookupA rest k

/-- Go map write m[k] = v: replace the first binding or append. -/
def setA {α β : Type} [DecidableEq α] : List (α × β) → α → β → List (α × β)
  | [], k, v => [(k, v)]
  | (k2, v2) :: rest, k, v =>
    if k2 = k then (k, v) :: rest else (k2, v2) :: setA rest k v

/-- Go map delete(m, k): remove the first binding for the key. -/
def delA {α β : Type} [DecidableEq α] : List (α × β) → α → List (α × β)
  | [], _ => []
  | (k2, v2) :: rest, k => if k2 = k then rest else (k2, v2) :: delA rest k

/-- The keys of an association list (the Go map's key set, in model order). -/
def keysA {α β : Type} (l : List (α × β)) : List α := l.map Prod.fst

/-! ### Hash index (db/index, part_002) -/

/-- HashIndex: raw column value → primary-key raw value. -/
structure HashIndex where
  data : List (GoVal × GoVal)
deriving DecidableEq, Repr

def HashIndex.empty : HashIndex := ⟨[]⟩

/-- HashIndex.Get: keyed by the raw payload val.Val. -/
def HashIndex.get (idx : HashIndex) (val : Value) : Option GoVal :=
  lookupA idx.data val.val

/-- HashIndex.Set. -/
def HashIndex.set (idx : HashIndex) (val : Value) (pk : GoVal) : HashIndex :=
  ⟨setA idx.data val.val pk⟩

/-- HashIndex.Delete. -/
def HashIndex.delete (idx : HashIndex) (val : Value) : HashIndex :=
  ⟨delA idx.data val.val⟩

/-! ### Table (db/storage, part_003) -/

/-- Table: schema, row map (PK raw value → Row) and one index per
primary/unique column.  The Go field `Def` is named `tdef` (`def` is a Lean
keyword).  The mutex only serializes access and has no sequential content. -/
structure Table where
  tdef : TableDef
  rows : List (GoVal × Row)
  indices : List (String × HashIndex)
deriving DecidableEq, Repr

/-- NewTable: empty rows, one empty index per primary/unique column. -/
def newTable (td : TableDef) : Table :=
  { tdef := td
    rows := []
    indices :=
      (td.columns.filter (fun c => c.isPrimary || c.isUnique)).map
        (fun c => (c.name, HashIndex.empty)) }

/-- The type-validation loop of Table.Insert: `for i, val := range values`,
comparing val.Type against Def.Columns[i].Type.  Called with equally long
lists (the count check precedes it). -/
def typeCheckValues : List ColumnDef → List Value → Option String
  | _, [] => none
  | [], _ :: _ => some "panic: more values than columns"
  | c :: cs, v :: vs =>
    if v.type ≠ c.type then
      some ("type mismatch for column " ++ c.name)
    else
      typeCheckValues cs vs

/-- The unique-constraint loop of Table.Insert: for every unique non-primary
column, look the inserted value up in that column's index. -/
def insertUniqueCheck (td : TableDef) (indices : List (String × HashIndex))
    (values : List Value) : List ColumnDef → Option String
  | [] => none
  | c :: cs =>
    if c.isUnique && !c.isPrimary then
      match td.getColumnIndex c.name with
      | none => some "panic: column not found"
      | some colIdx =>
        match values.get? colIdx with
        | none => some "panic: index out of range"
        | some val =>
          match lookupA indices c.name with
          | none => insertUniqueCheck td indices values cs
          | some idx =>
            if (idx.get val).isSome then
              some ("duplicate unique value for column " ++ c.name)
            else
              insertUniqueCheck td indices values cs
    else
      insertUniqueCheck td indices values cs

/-- The index-update loop of Table.Insert (step 4): every primary/unique
column's index gains an entry values[colIdx] → pk.  A column without an
index is skipped (`hasIdx`), mirroring the Go guard. -/
def insertUpdateIndices (td : TableDef) (values : List Value) (pk : GoVal) :
    List (String × HashIndex) → List ColumnDef → List (String × HashIndex)
  | indices, [] => indices
  | indices, c :: cs =>
    if c.isPrimary || c.isUnique then
      match lookupA indices c.name, td.getColumnIndex c.name with
      | some idx, some colIdx =>
        match values.get? colIdx with
        | some v =>
          insertUpdateIndices td values pk (setA indices c.name (idx.set v pk)) cs
        | none => insertUpdateIndices td values pk indices cs
      | _, _ => insertUpdateIndices td values pk indices cs
    else
      insertUpdateIndices td values pk indices cs

/-- Table.Insert.  Returns (error, table): the Go method mutates the
receiver only in steps 3–4, after every check has passed, so every error
leaves the table exactly as it was. -/
def Table.insert (t : Table) (values : List Value) : Option String × Table :=
  if values.length ≠ t.tdef.columns.length then
    (some "column count mismatch", t)
  else
    match typeCheckValues t.tdef.columns values with
    | some e => (some e, t)
    | none =>
      match t.tdef.getPrimaryKey with
      | none => (some ("table " ++ t.tdef.name ++ " has no primary key"), t)
      | some pkCol =>
        match t.tdef.getColumnIndex pkCol.name with
        | none => (some "panic: primary column not found", t)
        | some pkIdx =>
          match values.get? pkIdx with
          | none => (some "panic: index out of range", t)
          | some pkVal =>
            let pk := pkVal.val
            if (lookupA t.rows pk).isSome then
              (some "duplicate primary key", t)
            else
              match insertUniqueCheck t.tdef t.indices values t.tdef.columns with
              | some e => (some e, t)
              | none =>
                (none,
                 { t with
                   rows := setA t.rows pk ⟨values⟩
                   indices :=
                     insertUpdateIndices t.tdef values pk t.indices t.tdef.columns })

/-- The index-cleanup loop of Table.Delete: drop the row's entry from every
primary/unique column's index. -/
def deleteIndices (td : TableDef) (row : Row) :
    List (String × HashIndex) → List ColumnDef → List (String × HashIndex)
  | indices, [] => indices
  | indices, c :: cs =>
    if c.isPrimary || c.isUnique then
      match lookupA indices c.name, td.getColumnIndex c.name with
      | some idx, some colIdx =>
        match row.values.get? colIdx with
        | some v => deleteIndices td row (setA indices c.name (idx.delete v)) cs
        | none => deleteIndices td row indices cs
      | _, _ => deleteIndices td row indices cs
    else
      deleteIndices td row indices cs

/-- Table.Delete: remove the row keyed by pk.Val and its index entries. -/
def Table.delete (t : Table) (pk : Value) : Option String × Table :=
  match lookupA t.rows pk.val with
  | none => (some "row not found for pk", t)
  | some row =>
    (none,
     { t with
       rows := delA t.rows pk.val
       indices := deleteIndices t.tdef row t.indices t.tdef.columns })

/-- The unique-constraint loop of Table.Update over
columns[i], newValues[i], oldRow.Values[i]: only values whose raw payload
changed are checked.  A missing index would be a nil dereference in Go. -/
def updateUniqueCheck (indices : List (String × HashIndex)) :
    List (ColumnDef × Value × Value) → Option String
  | [] => none
  | (c, newVal, oldVal) :: rest =>
    if c.isUnique && !c.isPrimary then
      if newVal.val ≠ oldVal.val then
        match lookupA indices c.name with
        | none => some "panic: nil index"
        | some idx =>
          if (idx.get newVal).isSome then
            some ("duplicate unique value for " ++ c.name)
          else
            updateUniqueCheck indices rest
      else
        updateUniqueCheck indices rest
    else
      updateUniqueCheck indices rest

/-- The index-rewrite loop of Table.Update: for every changed unique
non-primary value, remove the old entry and add the new one.  A missing
index (a Go nil dereference, unreachable after the check loop) is skipped. -/
def updateIndices (pk : GoVal) :
    List (String × HashIndex) → List (ColumnDef × Value × Value) →
    List (String × HashIndex)
  | indices, [] => indices
  | indices, (c, newVal, oldVal) :: rest =>
    if c.isUnique && !c.isPrimary then
      if newVal.val ≠ oldVal.val then
        match lookupA indices c.name with
        | none => updateIndices pk indices rest
        | some idx =>
          updateIndices pk
            (setA indices c.name ((idx.delete oldVal).set newVal pk)) rest
      else
        updateIndices pk indices rest
    else
      updateIndices pk indices rest

/-- Table.Update: no domain (type) validation is performed; the primary-key
cell must be unchanged (raw-payload comparison of the interface values); a
changed unique value colliding with an index entry is rejected. -/
def Table.update (t : Table) (pk : Value) (newValues : List Value) :
    Option String × Table :=
  match lookupA t.rows pk.val with
  | none => (some "row not found", t)
  | some oldRow =>
    if newValues.length ≠ t.tdef.columns.length then
      (some "column count mismatch", t)
    else
      match t.tdef.getPrimaryKey with
      | none => (some "panic: no primary key", t)
      | some pkCol =>
        match t.tdef.getColumnIndex pkCol.name with
        | none => (some "panic: primary column not found", t)
        | some pkIdx =>
          match newValues.get? pkIdx, oldRow.values.get? pkIdx with
          | some nvpk, some ovpk =>
            if nvpk.val ≠ ovpk.val then
              (some "updating primary key is not supported", t)
            else
              let triples := t.tdef.columns.zip (newValues.zip oldRow.values)
              match updateUniqueCheck t.indices triples with
              | some e => (some e, t)
              | none =>
                (none,
                 { t with
                   rows := setA t.rows pk.val ⟨newValues⟩
                   indices := updateIndices pk.val t.indices triples })
          | _, _ => (some "panic: index out of range", t)

/-- Table.GetRow. -/
def Table.getRow (t : Table) (pk : GoVal) : Option Row :=
  lookupA t.rows pk

/-- Table.Scan drives a callback over the row map in Go's (unspecified) map
iteration order; the model takes that order as the explicit `order` argument
and yields the entries it finds, in that order. -/
def Table.scanRows (t : Table) (order : List GoVal) : List (GoVal × Row) :=
  order.filterMap (fun k => (lookupA t.rows k).map (fun r => (k, r)))

/-- Table.IndexLookup. -/
def Table.indexLookup (t : Table) (colName : String) (val : Value) :
    Option GoVal :=
  (lookupA t.indices colName).bind (fun idx => idx.get val)

/-! ### AST statements (db/parser, part of tokenizer.go) -/

structure WhereClause where
  expr : Expression
deriving DecidableEq, Repr

structure JoinClause where
  table : String
  onLeft : String
  onRight : String
deriving DecidableEq, Repr

structure CreateTableStmt where
  tableName : String
  columns : List ColumnDef
deriving DecidableEq, Repr

structure InsertStmt where
  tableName : String
  values : List Value
deriving DecidableEq, Repr

structure SelectStmt where
  fields : List String
  tableName : String
  join : Option JoinClause
  whereClause : Option WhereClause
  limit : Int
deriving DecidableEq, Repr

/-- UpdateStmt.Set is a Go map col → Value; the parser puts at most one
entry in it, modelled as an association list. -/
structure UpdateStmt where
  tableName : String
  set : List (String × Value)
  whereClause : Option WhereClause
deriving DecidableEq, Repr

structure DeleteStmt where
  tableName : String
  whereClause : Option WhereClause
deriving DecidableEq, Repr

inductive Statement where
  | create (s : CreateTableStmt)
  | insert (s : InsertStmt)
  | select (s : SelectStmt)
  | update (s : UpdateStmt)
  | delete (s : DeleteStmt)
deriving DecidableEq, Repr

/-! ### Plan nodes and execution (db/engine/planner.go) -/

/-- stripTablePrefix: drop everything up to and including the first dot. -/
def stripTablePrefix (s : String) : String :=
  match s.splitOn "." with
  | _ :: rest@(_ :: _) => String.intercalate "." rest
  | _ => s

/-- Plan node tree.  ScanNode's Predicate is a Go closure, kept here as an
optional Lean function (nil for the bare scan feeding a join's right side). -/
inductive PlanNode where
  | scanNode (table : Table) (predicate : Option (Row → Bool))
  | indexScanNode (table : Table) (indexName : String) (value : Value)
  | limitNode (input : PlanNode) (limit : Int)
  | joinNode (left right : PlanNode) (leftCol rightCol : String)

/-- PlanNode.Schema. -/
def PlanNode.schema : PlanNode → TableDef
  | .scanNode t _ => t.tdef
  | .indexScanNode t _ _ => t.tdef
  | .limitNode input _ => input.schema
  | .joinNode l r _ _ =>
    { name := l.schema.name ++ "_" ++ r.schema.name
      columns := l.schema.columns ++ r.schema.columns }

/-- ScanNode.Execute without cancellation: all rows of the map (in iteration
order) that pass the predicate. -/
def scanNodeExec (t : Table) (predicate : Option (Row → Bool))
    (order : List GoVal) : List Row :=
  (t.scanRows order).filterMap (fun kr =>
    match predicate with
    | none => some kr.2
    | some p => if p kr.2 then some kr.2 else none)

/-- IndexScanNode.Execute: zero or one row; a dangling index reference
degrades to zero rows. -/
def indexScanExec (t : Table) (indexName : String) (value : Value) :
    List Row :=
  match t.indexLookup indexName value with
  | none => []
  | some pk =>
    match t.getRow pk with
    | none => []
    | some row => [row]

/-- The equality check of the nested-loop join body: emit the concatenated
row when Compare returns cmp == 0 with no error.  An out-of-range column
access would be a Go panic (unreachable for schema-aligned rows). -/
def joinMatch (lRow rRow : Row) (lIdx rIdx : Nat) : Option Row :=
  match lRow.values.get? lIdx, rRow.values.get? rIdx with
  | some lv, some rv =>
    let c := lv.compare rv
    if c.2 = none ∧ c.1 = 0 then some ⟨lRow.values ++ rRow.values⟩ else none
  | _, _ => none

/-- PlanNode.Execute without cancellation.  `ord` supplies the map iteration
order a ScanNode observes on its table. -/
def PlanNode.exec (ord : Table → List GoVal) : PlanNode → Except String (List Row)
  | .scanNode t predicate => .ok (scanNodeExec t predicate (ord t))
  | .indexScanNode t indexName value => .ok (indexScanExec t indexName value)
  | .limitNode input limit => do
    let rows ← input.exec ord
    pure (if (rows.length : Int) > limit then rows.take limit.toNat else rows)
  | .joinNode l r leftCol rightCol => do
    let leftRows ← l.exec ord
    let rightRows ← r.exec ord
    match l.schema.getColumnIndex leftCol, r.schema.getColumnIndex rightCol with
    | some lIdx, some rIdx =>
      .ok (leftRows.flatMap (fun lRow =>
        rightRows.filterMap (fun rRow => joinMatch lRow rRow lIdx rIdx)))
    | _, _ => .error ("join columns not found: " ++ leftCol ++ ", " ++ rightCol)

/-- planSelect: index path for a single "col = val" equality on a
primary/unique column, full scan with a predicate closure otherwise, then
the optional join wrap. -/
def planSelect (tables : List (String × Table)) (stmt : SelectStmt) :
    Except String PlanNode :=
  match lookupA tables stmt.tableName with
  | none => .error ("table not found: " ++ stmt.tableName)
  | some t =>
    let idxNode : Option PlanNode :=
      match stmt.whereClause with
      | none => none
      | some w =>
        match w.expr with
        | .comparisonExpr column operator value =>
          if operator = "=" then
            match t.tdef.getColumn column with
            | some colDef =>
              if colDef.isPrimary || colDef.isUnique then
                some (.indexScanNode t column value)
              else none
            | none => none
          else none
        | _ => none
    let node : PlanNode :=
      match idxNode with
      | some n => n
      | none =>
        .scanNode t (some (fun r =>
          match stmt.whereClause with
          | none => true
          | some w => evaluate (some w.expr) r t.tdef))
    match stmt.join with
    | none => .ok node
    | some j =>
      match lookupA tables j.table with
      | none => .error ("join table not found: " ++ j.table)
      | some rightTable =>
        .ok (.joinNode node (.scanNode rightTable none)
              (stripTablePrefix j.onLeft) (stripTablePrefix j.onRight))

/-- Planner.CreatePlan: only SELECT is planned; a LimitNode wraps the plan
only when Limit > 0 (0 is also the parser's "no LIMIT clause" default). -/
def createPlan (tables : List (String × Table)) (stmt : Statement) :
    Except String PlanNode :=
  match stmt with
  | .select s => do
    let node ← planSelect tables s
    pure (if s.limit > 0 then .limitNode node s.limit else node)
  | _ => .error "planning not implemented for this statement"

/-! ### Engine dispatcher (part_001)

The engine's table registry (Engine.Tables) is the `tables` association
list.  Persistence (storage.SaveTable) has no sequential effect on the
modelled state: a successful call is the identity, so an `.ok` result below
means "the mutation completed and the table was persisted", while `.error`
means the Go function returned before reaching SaveTable. -/

/-- Engine.execCreate: reject an existing name, reject a schema with no
primary column (the first primary column satisfies the check — nothing
rejects a second one), then register and persist the empty table. -/
def execCreate (tables : List (String × Table)) (stmt : CreateTableStmt) :
    Except String (List (String × Table) × String) :=
  if (lookupA tables stmt.tableName).isSome then
    .error ("table already exists: " ++ stmt.tableName)
  else
    let td : TableDef := { name := stmt.tableName, columns := stmt.columns }
    match td.getPrimaryKey with
    | none => .error "table must have a primary key"
    | some _ =>
      .ok (setA tables stmt.tableName (newTable td),
           "Table " ++ stmt.tableName ++ " created")

/-- Engine.applyUpdate's assignment loop: copy the row's values and write
each SET column (resolved by name; an unknown column aborts). -/
def applySet (td : TableDef) : List Value → List (String × Value) →
    Except String (List Value)
  | vals, [] => .ok vals
  | vals, (colName, newVal) :: rest =>
    match td.getColumnIndex colName with
    | none => .error ("column not found: " ++ colName)
    | some idx => applySet td (vals.set idx newVal) rest

/-- Engine.applyUpdate: build the new value list and delegate to
Table.Update keyed by the row's primary key.  Only pkValue.Val is ever read
by Table.Update; a table without a primary column would make Go read the
zero ColumnDef (modelled as the panic error). -/
def applyUpdate (t : Table) (row : Row) (setList : List (String × Value))
    (pk : GoVal) : Option String × Table :=
  match applySet t.tdef row.values setList with
  | .error e => (some e, t)
  | .ok newValues =>
    match t.tdef.getPrimaryKey with
    | none => (some "panic: no primary key", t)
    | some pkCol => t.update ⟨pkCol.type, pk⟩ newValues

/-- Does the WHERE clause qualify for the primary-key fast path of
execUpdate/execDelete (a single "col = val" with col primary)?  Returns the
target raw key when it does. -/
def pkEqTarget (t : Table) (whereClause : Option WhereClause) : Option GoVal :=
  match whereClause with
  | none => none
  | some w =>
    match w.expr with
    | .comparisonExpr column operator value =>
      if operator = "=" then
        match t.tdef.getColumn column with
        | some col => if col.isPrimary then some value.val else none
        | none => none
      else none
    | _ => none

/-- The per-key loop of the scan-based execUpdate: re-fetch each collected
key (skipping a vanished row) and apply the update; the first failing row
makes the Go function return the error — later keys are never attempted and
SaveTable is never reached. -/
def updateKeys (setList : List (String × Value)) :
    Table → List GoVal → Nat → Except String (Table × Nat)
  | t, [], count => .ok (t, count)
  | t, pk :: rest, count =>
    match t.getRow pk with
    | none => updateKeys setList t rest count
    | some row =>
      match applyUpdate t row setList pk with
      | (some e, _) => .error e
      | (none, t2) => updateKeys setList t2 rest (count + 1)

/-- The keys a scan-based execUpdate/execDelete collects: every key of the
map (iterated in `order`) whose row satisfies the WHERE clause. -/
def qualifyingKeys (t : Table) (whereClause : Option WhereClause)
    (order : List GoVal) : List GoVal :=
  (t.scanRows order).filterMap (fun kr =>
    if (match whereClause with
        | none => true
        | some w => evaluate (some w.expr) kr.2 t.tdef) then
      some kr.1
    else none)

/-- Engine.execUpdate.  `.ok (table, n)` models the "Updated n rows" result
(the table was persisted); `.error` models the early error return (no
persistence, no count). -/
def execUpdate (tables : List (String × Table)) (stmt : UpdateStmt)
    (order : List GoVal) : Except String (Table × Nat) :=
  match lookupA tables stmt.tableName with
  | none => .error "table not found"
  | some table =>
    match pkEqTarget table stmt.whereClause with
    | some pkTarget =>
      match table.getRow pkTarget with
      | some row =>
        match applyUpdate table row stmt.set pkTarget with
        | (some e, _) => .error e
        | (none, t2) => .ok (t2, 1)
      | none => .ok (table, 0)
    | none =>
      updateKeys stmt.set table (qualifyingKeys table stmt.whereClause order) 0

/-- The per-key loop of execDelete: a failing Table.Delete is skipped
(`if err == nil { count++ }`) and the loop continues. -/
def deleteKeys (pkType : DataType) :
    Table → List GoVal → Nat → Table × Nat
  | t, [], count => (t, count)
  | t, pk :: rest, count =>
    match t.delete ⟨pkType, pk⟩ with
    | (none, t2) => deleteKeys pkType t2 rest (count + 1)
    | (some _, _) => deleteKeys pkType t rest count

/-- Engine.execDelete: collect the keys (primary-key fast path or scan),
delete each, skipping failures, then persist and report the count.  The
primary-key column's type tag is never read by Table.Delete; a table with
no primary column would give Go the zero ColumnDef (typed INT here). -/
def execDelete (tables : List (String × Table)) (stmt : DeleteStmt)
    (order : List GoVal) : Except String (Table × Nat) :=
  match lookupA tables stmt.tableName with
  | none => .error "table not found"
  | some table =>
    let keysToDelete : List GoVal :=
      match pkEqTarget table stmt.whereClause with
      | some pkTarget => [pkTarget]
      | none => qualifyingKeys table stmt.whereClause order
    let pkType : DataType :=
      match table.tdef.getPrimaryKey with
      | some c => c.type
      | none => .INT
    .ok (deleteKeys pkType table keysToDelete 0)

/-! ### Parser (db/parser/tokenizer.go): the UPDATE/DELETE statements

The parser state (curToken, peekToken over the tokenizer) is modelled as
the list of not-yet-consumed tokens: curToken is the head, peekToken the
second element, and the tokenizer yields EOF forever past the end. -/

inductive TokenType where
  | illegal | eofT | ws
  | ident | stringT | number
  | selectT | fromT | whereT | insertT | intoT | valuesT | updateT | setT
  | deleteT | createT | tableT | primaryT | keyT | uniqueT | joinT | onT
  | intTypeT | textTypeT | andT
  | asterisk | comma | lparen | rparen | equal | limitT | ifT | notT | existsT
deriving DecidableEq, Repr

structure Token where
  type : TokenType
  literal : String
deriving DecidableEq, Repr

def eofToken : Token := ⟨.eofT, ""⟩

/-- p.curToken. -/
def curTok (toks : List Token) : Token := toks.headD eofToken

/-- p.peekToken. -/
def peekTok (toks : List Token) : Token := (toks.drop 1).headD eofToken

/-- p.nextToken. -/
def advanceTok (toks : List Token) : List Token := toks.drop 1

/-- p.expectPeek: advance when the peek token has the wanted type, record an
error otherwise. -/
def expectPeek (toks : List Token) (t : TokenType) : Except String (List Token) :=
  if (peekTok toks).type = t then .ok (advanceTok toks)
  else .error ("expected next token, got " ++ (peekTok toks).literal ++ " instead")

/-- Parser.parseValue on the current token: a number token becomes an INT
value via Atoi, a string token a TEXT value. -/
def parseValue (toks : List Token) : Except String Value :=
  match (curTok toks).type with
  | .number =>
    match (curTok toks).literal.toInt? with
    | some i => .ok ⟨.INT, .vInt i⟩
    | none => .error "invalid number"
  | .stringT => .ok ⟨.TEXT, .vStr (curTok toks).literal⟩
  | _ => .error ("unexpected value type: " ++ (curTok toks).literal)

/-- Parser.parseComparison: IDENT '=' value; ends with the value token
current. -/
def parseComparison (toks : List Token) :
    Except String (Expression × List Token) :=
  if (curTok toks).type ≠ .ident then
    .error ("expected column name, got " ++ (curTok toks).literal)
  else
    let col := (curTok toks).literal
    match expectPeek toks .equal with
    | .error e => .error e
    | .ok toks2 =>
      let toks3 := advanceTok toks2
      match parseValue toks3 with
      | .error e => .error e
      | .ok val => .ok (.comparisonExpr col "=" val, toks3)

mutual

/-- Parser.parseExpression: a comparison followed by the AND-chaining loop.
The fuel argument is a model artifact standing in for the Go loop's
termination (every iteration consumes tokens); it is chosen large enough by
every caller. -/
def parseExpression (fuel : Nat) (toks : List Token) :
    Except String (Expression × List Token) :=
  match fuel with
  | 0 => .error "model artifact: fuel exhausted"
  | fuel + 1 =>
    match parseComparison toks with
    | .error e => .error e
    | .ok (left, toks1) => parseExprLoop fuel left toks1

/-- The `for p.peekTokenIs(TokenAnd) ...` loop body of parseExpression:
advance onto the AND token and recurse (Go recurses without moving past
AND, so the recursive parseComparison sees the AND token as current). -/
def parseExprLoop (fuel : Nat) (left : Expression) (toks : List Token) :
    Except String (Expression × List Token) :=
  match fuel with
  | 0 => .error "model artifact: fuel exhausted"
  | fuel + 1 =>
    if (peekTok toks).type = .andT then
      let toks2 := advanceTok toks
      let op := (curTok toks2).literal
      match parseExpression fuel toks2 with
      | .error e => .error e
      | .ok (right, toks3) => parseExprLoop fuel (.infixExpr left op right) toks3
    else
      .ok (left, toks)

end

/-- Parser.parseWhere: step past WHERE and parse the expression. -/
def parseWhere (toks : List Token) : Except String (WhereClause × List Token) :=
  let toks2 := advanceTok toks
  match parseExpression (toks2.length + 1) toks2 with
  | .error e => .error e
  | .ok (expr, toks3) => .ok (⟨expr⟩, toks3)

/-- Parser.parseUpdate: UPDATE ident SET ident '=' value, then a mandatory
WHERE clause — its absence is the error "UPDATE requires WHERE". -/
def parseUpdate (toks : List Token) : Except String UpdateStmt :=
  match expectPeek toks .ident with
  | .error e => .error e
  | .ok toks1 =>
    let tableName := (curTok toks1).literal
    match expectPeek toks1 .setT with
    | .error e => .error e
    | .ok toks2 =>
      let toks3 := advanceTok toks2
      if (curTok toks3).type ≠ .ident then .error "expected col name"
      else
        let col := (curTok toks3).literal
        match expectPeek toks3 .equal with
        | .error e => .error e
        | .ok toks4 =>
          let toks5 := advanceTok toks4
          match parseValue toks5 with
          | .error e => .error e
          | .ok val =>
            if (peekTok toks5).type = .whereT then
              match parseWhere (advanceTok toks5) with
              | .error e => .error e
              | .ok (w, _) =>
                .ok { tableName := tableName, set := [(col, val)],
                      whereClause := some w }
            else
              .error "UPDATE requires WHERE"

/-- Parser.parseDelete: DELETE FROM ident, then a mandatory WHERE clause —
its absence is the error "DELETE requires WHERE". -/
def parseDelete (toks : List Token) : Except String DeleteStmt :=
  match expectPeek toks .fromT with
  | .error e => .error e
  | .ok toks1 =>
    match expectPeek toks1 .ident with
    | .error e => .error e
    | .ok toks2 =>
      let tableName := (curTok toks2).literal
      if (peekTok toks2).type = .whereT then
        match parseWhere (advanceTok toks2) with
        | .error e => .error e
        | .ok (w, _) =>
          .ok { tableName := tableName, whereClause := some w }
      else
        .error "DELETE requires WHERE"

/-! ### Invariants used by the theorems -/

/-- The raw primary-key payload of a row under a schema: the cell at the
first primary column's position. -/
def rowPkCell (td : TableDef) (row : Row) : Option GoVal :=
  match td.getPrimaryKey with
  | none => none
  | some pkCol =>
    match td.getColumnIndex pkCol.name with
    | none => none
    | some pkIdx => (row.values.get? pkIdx).map Value.val

/-- Table invariant (a) of the spec: the row map's keys are pairwise
distinct and every row's primary-key cell is exactly its key. -/
def pkInvariant (t : Table) : Prop :=
  (keysA t.rows).Nodup ∧ ∀ kr ∈ t.rows, rowPkCell t.tdef kr.2 = some kr.1

/-- A sequence of inserts as the engine performs them: each failing insert
leaves the table as it was, each successful one replaces it. -/
def insertAll (t : Table) (l : List (List Value)) : Table :=
  l.foldl (fun t vs => (t.insert vs).2) t

/-- One row is covered by one column's index: if the column resolves to a
position and the row has a cell there, the index maps that cell's payload
to the row's key. -/
def cellIndexedB (hi : HashIndex) (td : TableDef) (c : ColumnDef)
    (kr : GoVal × Row) : Bool :=
  match td.getColumnIndex c.name with
  | none => true
  | some ci =>
    match kr.2.values.get? ci with
    | none => true
    | some v => lookupA hi.data v.val == some kr.1

/-- One primary/unique column's index exists and covers every live row. -/
def indexCoversB (t : Table) (c : ColumnDef) : Bool :=
  match lookupA t.indices c.name with
  | none => false
  | some hi => t.rows.all (cellIndexedB hi t.tdef c)

/-- Table invariant (b) of the spec, the completeness direction: every
primary/unique column has an index and it covers every live row. -/
def indicesCompleteB (t : Table) : Bool :=
  t.tdef.columns.all (fun c => !(c.isPrimary || c.isUnique) || indexCoversB t c)

/-! ### Helper lemmas about the association-list model -/

theorem lookupA_eq_none_iff {α β : Type} [DecidableEq α]
    (l : List (α × β)) (k : α) : lookupA l k = none ↔ k ∉ keysA l := by
  induction l with
  | nil => simp [lookupA, keysA]
  | cons kv rest ih =>
    obtain ⟨k2, v⟩ := kv
    by_cases h : k2 = k
    · subst h
      simp [lookupA, keysA]
    · simp [lookupA, keysA, h, Ne.symm h] at ih ⊢
      exact ih

theorem setA_of_not_mem {α β : Type} [DecidableEq α]
    (l : List (α × β)) (k : α) (v : β) (h : k ∉ keysA l) :
    setA l k v = l ++ [(k, v)] := by
  induction l with
  | nil => simp [setA]
  | cons kv rest ih =>
    obtain ⟨k2, v2⟩ := kv
    simp only [keysA, List.map_cons, List.mem_cons] at h
    push_neg at h
    simp [setA, Ne.symm h.1, ih (by simpa [keysA] using h.2)]

theorem lookupA_mem {α β : Type} [DecidableEq α]
    {l : List (α × β)} {k : α} {v : β} (h : lookupA l k = some v) :
    (k, v) ∈ l := by
  induction l with
  | nil => simp [lookupA] at h
  | cons kv rest ih =>
    obtain ⟨k2, v2⟩ := kv
    by_cases hk : k2 = k
    · subst hk
      simp [lookupA] at h
      simp [h]
    · simp [lookupA, hk] at h
      exact List.mem_cons_of_mem _ (ih h)

/-- Entries of a list with pairwise-distinct keys are determined by their
keys. -/
theorem entry_eq_of_key_eq {α β : Type} {l : List (α × β)}
    (hnd : (keysA l).Nodup) {p q : α × β} (hp : p ∈ l) (hq : q ∈ l)
    (hk : p.1 = q.1) : p = q := by
  induction l with
  | nil => cases hp
  | cons kv rest ih =>
    simp only [keysA, List.map_cons, List.nodup_cons] at hnd
    rcases List.mem_cons.mp hp with hp1 | hp2 <;>
      rcases List.mem_cons.mp hq with hq1 | hq2
    · exact hp1.trans hq1.symm
    · exfalso
      apply hnd.1
      rw [hp1] at hk
      exact hk ▸ List.mem_map_of_mem Prod.fst hq2
    · exfalso
      apply hnd.1
      rw [hq1] at hk
      exact hk ▸ List.mem_map_of_mem Prod.fst hp2
    · exact ih hnd.2 hp2 hq2

/-! ### C1 — the predicate evaluator on a type-mismatched comparison -/

/-- Claim C1 (code_bug evidence): the claim says a ComparisonExpression
whose literal's type tag differs from the column value's tag never
satisfies the predicate.  The code refutes it: Evaluate discards the error
from Value.Compare, Compare returns 0 alongside that error, and cmp == 0
makes the predicate TRUE.  Here a row holding INT 5 satisfies the predicate
a = 'x' (a TEXT literal). -/
theorem evaluate_type_mismatch_true :
    evaluate (some (.comparisonExpr "a" "=" ⟨.TEXT, .vStr "x"⟩))
        ⟨[⟨.INT, .vInt 5⟩]⟩ ⟨"t", [⟨"a", .INT, true, false⟩]⟩ = true := by
  decide

/-! ### C2 — index scan vs full scan under a mismatched-type literal -/

/-- A one-row table with a primary INT column, with its index consistent
with its rows. -/
def c2Table : Table :=
  { tdef := ⟨"users", [⟨"id", .INT, true, false⟩]⟩
    rows := [(.vInt 1, ⟨[⟨.INT, .vInt 1⟩]⟩)]
    indices := [("id", ⟨[(.vInt 1, .vInt 1)]⟩)] }

/-- Claim C2 (code_bug evidence): the claim says an IndexScanNode and a
ScanNode with the identical primary-column equality predicate return the
same row set.  On the predicate id = 'x' (TEXT literal on the INT primary
column), scanning returns the row — Evaluate treats the type mismatch as a
match — while the index lookup (keyed by the raw payload) finds nothing.
The scan order [vInt 1] is exactly the table's key list. -/
theorem indexScan_scan_divergence :
    keysA c2Table.rows = [.vInt 1]
    ∧ scanNodeExec c2Table
        (some (fun r =>
          evaluate (some (.comparisonExpr "id" "=" ⟨.TEXT, .vStr "x"⟩)) r
            c2Table.tdef))
        [.vInt 1] = [⟨[⟨.INT, .vInt 1⟩]⟩]
    ∧ indexScanExec c2Table "id" ⟨.TEXT, .vStr "x"⟩ = [] := by
  refine ⟨rfl, ?_, rfl⟩
  rfl

/-! ### C6 — scans iterate the raw map, not a sorted snapshot -/

/-- A two-row table (the rows association list models the Go map, whose
iteration order is unspecified). -/
def c6Table : Table :=
  { tdef := ⟨"t", [⟨"id", .INT, true, false⟩, ⟨"name", .TEXT, false, false⟩]⟩
    rows := [(.vInt 1, ⟨[⟨.INT, .vInt 1⟩, ⟨.TEXT, .vStr "a"⟩]⟩),
             (.vInt 2, ⟨[⟨.INT, .vInt 2⟩, ⟨.TEXT, .vStr "b"⟩]⟩)]
    indices := [("id", ⟨[(.vInt 1, .vInt 1), (.vInt 2, .vInt 2)]⟩)] }

/-- Claim C6 (code_bug evidence): the claim says two executions of the same
scan-backed query produce rows in the same order because tables expose a
sorted-by-primary-key snapshot.  Table.Scan actually ranges over the Go map
directly (sortPrimaryKeys is never called), so the row order is whatever
iteration order the runtime picks.  Both [1,2] and [2,1] are permutations
of the key set, and the ScanNode output differs between them. -/
theorem scan_order_nondeterminism :
    [GoVal.vInt 1, GoVal.vInt 2].Perm (keysA c6Table.rows)
    ∧ [GoVal.vInt 2, GoVal.vInt 1].Perm (keysA c6Table.rows)
    ∧ scanNodeExec c6Table none [.vInt 1, .vInt 2]
        ≠ scanNodeExec c6Table none [.vInt 2, .vInt 1] := by
  refine ⟨by decide, by decide, by decide⟩

/-! ### C3 — error handling of the scan-based (non-primary-key) UPDATE -/

/-- Splitting the key list of the scan-based update loop: the loop threads
the table through the first segment and continues into the second with the
accumulated count. -/
theorem updateKeys_append (setList : List (String × Value)) (a : List GoVal) :
    ∀ (t : Table) (b : List GoVal) (n : Nat),
      updateKeys setList t (a ++ b) n =
        match updateKeys setList t a n with
        | .ok (t2, n2) => updateKeys setList t2 b n2
        | .error e => .error e := by
  induction a with
  | nil => intro t b n; simp [updateKeys]
  | cons k rest ih =>
    intro t b n
    simp only [List.cons_append, updateKeys]
    cases hrow : t.getRow k with
    | none => simpa using ih t b n
    | some row =>
      cases happ : applyUpdate t row setList k with
      | mk err t2 =>
        cases err with
        | none => simp only [happ]; exact ih t2 b (n + 1)
        | some e => simp only [happ]

/-- Claim C3: the amended statement.  In the scan path of execUpdate (the
WHERE clause is not a single primary-key equality), if the qualifying keys
split as ks1 ++ k :: ks2, every update over ks1 succeeds, and the update of
row k fails (a constraint violation), then execUpdate returns that error:
the keys in ks2 are never attempted — the result does not depend on them —
no count is reported, and SaveTable is never reached. -/
theorem execUpdate_abort_on_constraint_violation
    (tables : List (String × Table)) (stmt : UpdateStmt) (order : List GoVal)
    (table t1 : Table) (ks1 ks2 : List GoVal) (k : GoVal) (c1 : Nat)
    (row : Row) (e : String)
    (htab : lookupA tables stmt.tableName = some table)
    (hscan : pkEqTarget table stmt.whereClause = none)
    (hkeys : qualifyingKeys table stmt.whereClause order = ks1 ++ k :: ks2)
    (hpre : updateKeys stmt.set table ks1 0 = .ok (t1, c1))
    (hrow : t1.getRow k = some row)
    (hfail : (applyUpdate t1 row stmt.set k).1 = some e) :
    execUpdate tables stmt order = .error e := by
  simp only [execUpdate, htab, hscan, hkeys]
  rw [updateKeys_append, hpre]
  simp only [updateKeys, hrow]
  cases happ : applyUpdate t1 row stmt.set k with
  | mk err t2 =>
    rw [happ] at hfail
    simp only at hfail
    subst hfail
    simp

/-- The C3 scenario: id INT PRIMARY KEY, u INT UNIQUE, grp INT with rows
(1,10,7), (2,20,7), (3,30,7) and consistent indices. -/
def c3Table : Table :=
  { tdef := ⟨"t", [⟨"id", .INT, true, false⟩, ⟨"u", .INT, false, true⟩,
                   ⟨"grp", .INT, false, false⟩]⟩
    rows := [(.vInt 1, ⟨[⟨.INT, .vInt 1⟩, ⟨.INT, .vInt 10⟩, ⟨.INT, .vInt 7⟩]⟩),
             (.vInt 2, ⟨[⟨.INT, .vInt 2⟩, ⟨.INT, .vInt 20⟩, ⟨.INT, .vInt 7⟩]⟩),
             (.vInt 3, ⟨[⟨.INT, .vInt 3⟩, ⟨.INT, .vInt 30⟩, ⟨.INT, .vInt 7⟩]⟩)]
    indices := [("id", ⟨[(.vInt 1, .vInt 1), (.vInt 2, .vInt 2),
                         (.vInt 3, .vInt 3)]⟩),
                ("u", ⟨[(.vInt 10, .vInt 1), (.vInt 20, .vInt 2),
                        (.vInt 30, .vInt 3)]⟩)] }

/-- UPDATE t SET u = 10 WHERE grp = 7 — a scan-based update matching all
three rows; row 1 keeps its own value 10, row 2 then collides with it. -/
def c3Stmt : UpdateStmt :=
  ⟨"t", [("u", ⟨.INT, .vInt 10⟩)],
   some ⟨.comparisonExpr "grp" "=" ⟨.INT, .vInt 7⟩⟩⟩

/-- Claim C3 (counterexample): on the scenario above (iterating the keys in
their map order 1, 2, 3), the claim demands that row 2's constraint
violation aborts only row 2, that row 3 still be attempted, the table
persisted and a count returned.  The code instead returns the error from
row 2: no count, no persistence, row 3 never attempted. -/
theorem execUpdate_abort_counterexample :
    keysA c3Table.rows = [.vInt 1, .vInt 2, .vInt 3]
    ∧ execUpdate [("t", c3Table)] c3Stmt [.vInt 1, .vInt 2, .vInt 3]
        = .error "duplicate unique value for u" := by
  constructor
  · rfl
  · rfl

/-- Witness for the amended C3 theorem at the concrete scenario: row 1
succeeds (its own value is kept), row 2 fails, so the statement aborts
whatever follows. -/
theorem execUpdate_abort_witness :
    execUpdate [("t", c3Table)] c3Stmt [.vInt 1, .vInt 2, .vInt 3]
      = .error "duplicate unique value for u" := by
  exact execUpdate_abort_on_constraint_violation
    [("t", c3Table)] c3Stmt [.vInt 1, .vInt 2, .vInt 3]
    c3Table c3Table [GoVal.vInt 1] [GoVal.vInt 3] (GoVal.vInt 2) 1
    ⟨[⟨.INT, .vInt 2⟩, ⟨.INT, .vInt 20⟩, ⟨.INT, .vInt 7⟩]⟩
    "duplicate unique value for u"
    (by rfl) (by rfl) (by rfl) (by rfl) (by rfl) (by rfl)

/-! ### C7 — primary-key validation at table creation -/

/-- Claim C7 (counterexample): the claim says Execute fails on a CREATE
TABLE statement with more than one PRIMARY KEY column.  execCreate only
checks that GetPrimaryKey finds *some* primary column, so a two-primary
schema is accepted. -/
theorem execCreate_two_primaries_accepted :
    (execCreate [] ⟨"t", [⟨"a", .INT, true, false⟩,
                          ⟨"b", .INT, true, false⟩]⟩).isOk = true := by
  rfl

/-- Claim C7: the amended statement.  Table creation validates that at
least one column is primary: execCreate fails whenever no column is flagged
primary, and succeeds (registering and persisting the table) for any fresh
table name with at least one primary column — several primary columns
included. -/
theorem execCreate_primary_validation :
    (∀ (tables : List (String × Table)) (stmt : CreateTableStmt),
        stmt.columns.find? (fun c => c.isPrimary) = none →
        ∃ e, execCreate tables stmt = .error e)
    ∧ (∀ (tables : List (String × Table)) (stmt : CreateTableStmt),
        lookupA tables stmt.tableName = none →
        (stmt.columns.find? (fun c => c.isPrimary)).isSome = true →
        (execCreate tables stmt).isOk = true) := by
  constructor
  · intro tables stmt hnone
    by_cases hex : (lookupA tables stmt.tableName).isSome = true
    · exact ⟨"table already exists: " ++ stmt.tableName,
             by simp [execCreate, hex]⟩
    · exact ⟨"table must have a primary key",
             by simp [execCreate, TableDef.getPrimaryKey, hex, hnone]⟩
  · intro tables stmt hfresh hsome
    cases hfind : stmt.columns.find? (fun c => c.isPrimary) with
    | none => rw [hfind] at hsome; simp at hsome
    | some c =>
      simp [execCreate, TableDef.getPrimaryKey, hfresh, hfind, Except.isOk,
            Except.toBool]

/-- Witness for the amended C7 theorem: a schema with no primary column is
rejected; a fresh two-primary schema is accepted. -/
theorem execCreate_primary_validation_witness :
    (∃ e, execCreate [] ⟨"t", [⟨"a", .INT, false, false⟩]⟩ = .error e)
    ∧ (execCreate [] ⟨"t", [⟨"a", .INT, true, false⟩,
                            ⟨"b", .INT, true, false⟩]⟩).isOk = true := by
  exact ⟨execCreate_primary_validation.1 [] _ (by decide),
         execCreate_primary_validation.2 [] _ (by decide) (by decide)⟩

/-! ### C5 — LIMIT semantics -/

/-- planSelect never reads the Limit field (CreatePlan reads it after). -/
theorem planSelect_limit_irrelevant (tables : List (String × Table))
    (s : SelectStmt) :
    planSelect tables { s with limit := 0 } = planSelect tables s := by
  cases s
  rfl

/-- Unfolding CreatePlan on a SELECT statement whose planning succeeds. -/
theorem createPlan_select_ok (tables : List (String × Table)) (s : SelectStmt)
    (node : PlanNode) (h : planSelect tables s = .ok node) :
    createPlan tables (.select s) =
      .ok (if s.limit > 0 then .limitNode node s.limit else node) := by
  have hdo : createPlan tables (.select s) =
      (do
        let node ← planSelect tables s
        pure (if s.limit > 0 then PlanNode.limitNode node s.limit else node)) := rfl
  rw [hdo, h]
  rfl

/-- Unfolding CreatePlan on a SELECT statement whose planning fails. -/
theorem createPlan_select_err (tables : List (String × Table)) (s : SelectStmt)
    (e : String) (h : planSelect tables s = .error e) :
    createPlan tables (.select s) = .error e := by
  have hdo : createPlan tables (.select s) =
      (do
        let node ← planSelect tables s
        pure (if s.limit > 0 then PlanNode.limitNode node s.limit else node)) := rfl
  rw [hdo, h]
  rfl

/-- Claim C5: the amended statement.  For n ≥ 1 (the code treats LIMIT 0 as
"no LIMIT clause", see the counterexample), a SELECT with LIMIT n returns
exactly the first n rows of the unlimited result: `take n`, whose length is
min n m and which is a prefix of the unlimited result in its order. -/
theorem limit_take_min_prefix (tables : List (String × Table))
    (ord : Table → List GoVal) (s : SelectStmt) (n : Int)
    (p p0 : PlanNode) (rows0 : List Row)
    (hn : s.limit = n) (hpos : 1 ≤ n)
    (hp : createPlan tables (.select s) = .ok p)
    (hp0 : createPlan tables (.select { s with limit := 0 }) = .ok p0)
    (hrows : p0.exec ord = .ok rows0) :
    p.exec ord = .ok (rows0.take n.toNat)
    ∧ (rows0.take n.toNat).length = min n.toNat rows0.length
    ∧ rows0.take n.toNat <+: rows0 := by
  refine ⟨?_, List.length_take n.toNat rows0, List.take_prefix n.toNat rows0⟩
  cases hplan : planSelect tables s with
  | error e =>
    rw [createPlan_select_err tables s e hplan] at hp
    cases hp
  | ok node =>
    have hngt : s.limit > 0 := by omega
    have hp' := createPlan_select_ok tables s node hplan
    rw [if_pos hngt] at hp'
    have hpeq : p = .limitNode node s.limit :=
      (Except.ok.inj (hp'.symm.trans hp)).symm
    have hplan0 : planSelect tables { s with limit := 0 } = .ok node := by
      rw [planSelect_limit_irrelevant]; exact hplan
    have hp0' := createPlan_select_ok tables { s with limit := 0 } node hplan0
    have hzero : ({ s with limit := 0 } : SelectStmt).limit = (0 : Int) := rfl
    rw [hzero, if_neg (by decide)] at hp0'
    have hp0eq : p0 = node := (Except.ok.inj (hp0'.symm.trans hp0)).symm
    rw [hpeq, hn]
    rw [hp0eq] at hrows
    have hexec : (PlanNode.limitNode node n).exec ord =
        (do
          let rows ← node.exec ord
          pure (if (rows.length : Int) > n then rows.take n.toNat else rows)) := rfl
    rw [hexec, hrows]
    show Except.ok (if (rows0.length : Int) > n then rows0.take n.toNat else rows0)
      = .ok (rows0.take n.toNat)
    by_cases hlen : (rows0.length : Int) > n
    · rw [if_pos hlen]
    · rw [if_neg hlen]
      have hle : rows0.length ≤ n.toNat := by omega
      rw [List.take_of_length_le hle]

/-- The one-row table and SELECT of the C5 scenario. -/
def c5Table : Table :=
  { tdef := ⟨"t", [⟨"id", .INT, true, false⟩]⟩
    rows := [(.vInt 1, ⟨[⟨.INT, .vInt 1⟩]⟩)]
    indices := [("id", ⟨[(.vInt 1, .vInt 1)]⟩)] }

/-- Claim C5 (counterexample): the claim includes n = 0 ("for every
n ≥ 0 ... exactly min(n, m) rows").  With LIMIT 0 over a one-row table the
planner does not wrap a LimitNode (`if s.Limit > 0`), so the query returns
1 row, not min(0, 1) = 0 rows. -/
theorem limit_zero_counterexample :
    (do
      let p ← createPlan [("t", c5Table)]
        (.select ⟨["*"], "t", none, none, 0⟩)
      p.exec (fun _ => [.vInt 1]))
      = .ok [(⟨[⟨.INT, .vInt 1⟩]⟩ : Row)]
    ∧ ([(⟨[⟨.INT, .vInt 1⟩]⟩ : Row)].length ≠
        min (Int.toNat 0) [(⟨[⟨.INT, .vInt 1⟩]⟩ : Row)].length) := by
  exact ⟨rfl, by decide⟩

/-- Witness for the amended C5 theorem: LIMIT 1 over the one-row table
returns take 1 of the unlimited result. -/
theorem limit_take_min_prefix_witness :
    (PlanNode.limitNode
        (.scanNode c5Table (some fun _ => true)) 1).exec (fun _ => [.vInt 1])
      = .ok (([(⟨[⟨.INT, .vInt 1⟩]⟩ : Row)]).take ((1 : Int)).toNat)
    ∧ (([(⟨[⟨.INT, .vInt 1⟩]⟩ : Row)]).take ((1 : Int)).toNat).length
        = min ((1 : Int)).toNat ([(⟨[⟨.INT, .vInt 1⟩]⟩ : Row)]).length
    ∧ ([(⟨[⟨.INT, .vInt 1⟩]⟩ : Row)]).take ((1 : Int)).toNat
        <+: [(⟨[⟨.INT, .vInt 1⟩]⟩ : Row)] := by
  exact limit_take_min_prefix [("t", c5Table)] (fun _ => [.vInt 1])
    ⟨["*"], "t", none, none, 1⟩ 1
    (.limitNode (.scanNode c5Table (some fun _ => true)) 1)
    (.scanNode c5Table (some fun _ => true))
    [(⟨[⟨.INT, .vInt 1⟩]⟩ : Row)]
    rfl (by decide) rfl rfl rfl

/-! ### C9 — UPDATE and DELETE require a WHERE clause at parse time -/

/-- Dropping a token preserves "no WHERE token in the stream". -/
theorem noWhere_advance (toks : List Token)
    (h : TokenType.whereT ∉ toks.map Token.type) :
    TokenType.whereT ∉ (advanceTok toks).map Token.type := by
  intro hmem
  apply h
  rcases List.mem_map.mp hmem with ⟨tk, htk, hty⟩
  exact hty ▸ List.mem_map_of_mem Token.type (List.drop_subset 1 toks htk)

/-- In a stream with no WHERE token the peek token is never WHERE (past the
end the tokenizer yields EOF forever). -/
theorem noWhere_peek (toks : List Token)
    (h : TokenType.whereT ∉ toks.map Token.type) :
    (peekTok toks).type ≠ TokenType.whereT := by
  unfold peekTok
  cases hd : toks.drop 1 with
  | nil => simp [eofToken]
  | cons a l =>
    simp only [List.headD_cons]
    intro hty
    apply h
    have ha : a ∈ toks := List.drop_subset 1 toks (hd ▸ List.mem_cons_self a l)
    exact hty ▸ List.mem_map_of_mem Token.type ha

/-- A successful expectPeek advances by exactly one token. -/
theorem expectPeek_ok (toks toks2 : List Token) (t : TokenType)
    (h : expectPeek toks t = .ok toks2) : toks2 = advanceTok toks := by
  unfold expectPeek at h
  by_cases hc : (peekTok toks).type = t
  · rw [if_pos hc] at h
    exact (Except.ok.inj h).symm
  · rw [if_neg hc] at h
    cases h

/-- parseUpdate on a token stream containing no WHERE token always fails. -/
theorem parseUpdate_requires_where (toks : List Token)
    (h : TokenType.whereT ∉ toks.map Token.type) :
    ∃ e, parseUpdate toks = .error e := by
  unfold parseUpdate
  split
  · exact ⟨_, rfl⟩
  next toks1 e1 =>
    rw [expectPeek_ok toks toks1 .ident e1]
    split
    · exact ⟨_, rfl⟩
    next toks2 e2 =>
      rw [expectPeek_ok _ toks2 .setT e2]
      dsimp only
      split
      · exact ⟨_, rfl⟩
      · split
        · exact ⟨_, rfl⟩
        next toks4 e4 =>
          rw [expectPeek_ok _ toks4 .equal e4]
          split
          · exact ⟨_, rfl⟩
          · have h5 : TokenType.whereT ∉
                (advanceTok (advanceTok (advanceTok (advanceTok
                  (advanceTok toks))))).map Token.type :=
              noWhere_advance _ (noWhere_advance _ (noWhere_advance _
                (noWhere_advance _ (noWhere_advance _ h))))
            rw [if_neg (noWhere_peek _ h5)]
            exact ⟨_, rfl⟩

/-- parseDelete on a token stream containing no WHERE token always fails. -/
theorem parseDelete_requires_where (toks : List Token)
    (h : TokenType.whereT ∉ toks.map Token.type) :
    ∃ e, parseDelete toks = .error e := by
  unfold parseDelete
  split
  · exact ⟨_, rfl⟩
  next toks1 e1 =>
    rw [expectPeek_ok toks toks1 .fromT e1]
    split
    · exact ⟨_, rfl⟩
    next toks2 e2 =>
      rw [expectPeek_ok _ toks2 .ident e2]
      have h2 : TokenType.whereT ∉
          (advanceTok (advanceTok toks)).map Token.type :=
        noWhere_advance _ (noWhere_advance _ h)
      rw [if_neg (noWhere_peek _ h2)]
      exact ⟨_, rfl⟩

/-- Claim C9: every UPDATE and every DELETE statement without a WHERE
clause (no WHERE token anywhere in its token stream) is rejected by the
parser with an error; no statement AST is produced. -/
theorem parse_update_delete_require_where (toksU toksD : List Token)
    (hU : TokenType.whereT ∉ toksU.map Token.type)
    (hD : TokenType.whereT ∉ toksD.map Token.type) :
    (∃ e, parseUpdate toksU = .error e)
    ∧ (∃ e, parseDelete toksD = .error e) :=
  ⟨parseUpdate_requires_where toksU hU, parseDelete_requires_where toksD hD⟩

/-- Witness for C9 at the concrete statements
UPDATE t SET c = 1  and  DELETE FROM t (no WHERE clause in either). -/
theorem parse_update_delete_require_where_witness :
    (∃ e, parseUpdate [⟨.updateT, "UPDATE"⟩, ⟨.ident, "t"⟩, ⟨.setT, "SET"⟩,
        ⟨.ident, "c"⟩, ⟨.equal, "="⟩, ⟨.number, "1"⟩, ⟨.eofT, ""⟩]
        = .error e)
    ∧ (∃ e, parseDelete [⟨.deleteT, "DELETE"⟩, ⟨.fromT, "FROM"⟩,
        ⟨.ident, "t"⟩, ⟨.eofT, ""⟩] = .error e) := by
  exact parse_update_delete_require_where _ _ (by decide) (by decide)

/-! ### C4 — primary-key uniqueness across insert sequences -/

/-- The two outcomes of Table.Insert: every failed check returns the error
with the table untouched (Go mutates only in steps 3–4, after all checks),
and a success appends the row under its fresh primary-key payload and
extends the indices. -/
theorem insert_shape (t : Table) (values : List Value) :
    (∃ e, t.insert values = (some e, t))
    ∨ (∃ pkCol pkIdx pkVal,
        t.tdef.getPrimaryKey = some pkCol
        ∧ t.tdef.getColumnIndex pkCol.name = some pkIdx
        ∧ values.get? pkIdx = some pkVal
        ∧ lookupA t.rows pkVal.val = none
        ∧ values.length = t.tdef.columns.length
        ∧ t.insert values =
            (none,
             { t with
               rows := setA t.rows pkVal.val ⟨values⟩
               indices :=
                 insertUpdateIndices t.tdef values pkVal.val t.indices
                   t.tdef.columns })) := by
  unfold Table.insert
  split
  · exact .inl ⟨_, rfl⟩
  next hlen =>
    split
    · exact .inl ⟨_, rfl⟩
    next htc =>
      split
      · exact .inl ⟨_, rfl⟩
      next pkCol hpk =>
        split
        · exact .inl ⟨_, rfl⟩
        next pkIdx hpkIdx =>
          split
          · exact .inl ⟨_, rfl⟩
          next pkVal hpkVal =>
            dsimp only
            by_cases hdup : (lookupA t.rows pkVal.val).isSome = true
            · rw [if_pos hdup]
              exact .inl ⟨_, rfl⟩
            · rw [if_neg hdup]
              split
              · exact .inl ⟨_, rfl⟩
              next hchk =>
                refine .inr ⟨pkCol, pkIdx, pkVal, hpk, hpkIdx, hpkVal, ?_, ?_, rfl⟩
                · exact Option.not_isSome_iff_eq_none.mp
                    (by simpa using hdup)
                · omega

/-- Table.Insert preserves invariant (a). -/
theorem insert_preserves_pkInvariant (t : Table) (values : List Value)
    (h : pkInvariant t) : pkInvariant (t.insert values).2 := by
  rcases insert_shape t values with ⟨e, heq⟩ | ⟨pkCol, pkIdx, pkVal, hpk, hpkIdx, hpkVal, hfresh, hlen, heq⟩
  · rw [heq]; exact h
  · rw [heq]
    obtain ⟨hnd, hcell⟩ := h
    have hnotmem : pkVal.val ∉ keysA t.rows :=
      (lookupA_eq_none_iff t.rows pkVal.val).mp hfresh
    rw [setA_of_not_mem t.rows pkVal.val ⟨values⟩ hnotmem]
    constructor
    · simp only [keysA, List.map_append, List.map_cons, List.map_nil]
      rw [List.nodup_append]
      refine ⟨hnd, List.nodup_singleton _, ?_⟩
      intro a ha hb
      simp only [List.mem_singleton] at hb
      subst hb
      exact hnotmem ha
    · intro kr hkr
      rcases List.mem_append.mp hkr with hold | hnew
      · exact hcell kr hold
      · simp only [List.mem_singleton] at hnew
        subst hnew
        unfold rowPkCell
        simp only [hpk, hpkIdx]
        simp only [Option.map_eq_some']
        exact ⟨pkVal, hpkVal, rfl⟩

/-- insertAll preserves invariant (a). -/
theorem insertAll_preserves_pkInvariant (l : List (List Value)) :
    ∀ t : Table, pkInvariant t → pkInvariant (insertAll t l) := by
  induction l with
  | nil => intro t h; exact h
  | cons vs rest ih =>
    intro t h
    exact ih _ (insert_preserves_pkInvariant t vs h)

/-- A freshly created table satisfies invariant (a). -/
theorem newTable_pkInvariant (td : TableDef) : pkInvariant (newTable td) := by
  constructor
  · simp [newTable, keysA]
  · intro kr hkr
    simp [newTable] at hkr

/-- Claim C4: (i) after any sequence of inserts into a freshly created
table, the row-map keys are pairwise distinct and every row's primary-key
cell equals its key — hence (ii) no two live rows share a primary-key
value; and (iii) an Insert whose primary-key value is already a live key
fails with an error and returns the table with row map and indices exactly
as they were. -/
theorem insert_pk_uniqueness :
    (∀ (td : TableDef) (l : List (List Value)),
       pkInvariant (insertAll (newTable td) l))
    ∧ (∀ (td : TableDef) (l : List (List Value)) (p q : GoVal × Row),
       p ∈ (insertAll (newTable td) l).rows →
       q ∈ (insertAll (newTable td) l).rows →
       rowPkCell (insertAll (newTable td) l).tdef p.2
         = rowPkCell (insertAll (newTable td) l).tdef q.2 →
       p = q)
    ∧ (∀ (t : Table) (values : List Value) (v : GoVal),
       rowPkCell t.tdef ⟨values⟩ = some v →
       (lookupA t.rows v).isSome = true →
       (t.insert values).1.isSome = true ∧ (t.insert values).2 = t) := by
  refine ⟨?_, ?_, ?_⟩
  · intro td l
    exact insertAll_preserves_pkInvariant l _ (newTable_pkInvariant td)
  · intro td l p q hp hq hcell
    obtain ⟨hnd, hinv⟩ := insertAll_preserves_pkInvariant l _ (newTable_pkInvariant td)
    have hpc := hinv p hp
    have hqc := hinv q hq
    rw [hpc, hqc] at hcell
    exact entry_eq_of_key_eq hnd hp hq (Option.some.inj hcell)
  · intro t values v hcell hdup
    rcases insert_shape t values with ⟨e, heq⟩ | ⟨pkCol, pkIdx, pkVal, hpk, hpkIdx, hpkVal, hfresh, hlen, heq⟩
    · rw [heq]
      exact ⟨rfl, rfl⟩
    · exfalso
      have hv : rowPkCell t.tdef ⟨values⟩ = some pkVal.val := by
        unfold rowPkCell
        simp only [hpk, hpkIdx]
        simp only [Option.map_eq_some']
        exact ⟨pkVal, hpkVal, rfl⟩
      rw [hv] at hcell
      rw [Option.some.inj hcell] at hfresh
      rw [hfresh] at hdup
      simp at hdup

/-- Witness for C4: after inserting (1,'a') and (2,'b') into a fresh table
the invariant holds, and re-inserting key 1 fails leaving the table
unchanged. -/
theorem insert_pk_uniqueness_witness :
    pkInvariant (insertAll
      (newTable ⟨"w", [⟨"id", .INT, true, false⟩, ⟨"name", .TEXT, false, false⟩]⟩)
      [[⟨.INT, .vInt 1⟩, ⟨.TEXT, .vStr "a"⟩], [⟨.INT, .vInt 2⟩, ⟨.TEXT, .vStr "b"⟩]])
    ∧ ((insertAll
        (newTable ⟨"w", [⟨"id", .INT, true, false⟩, ⟨"name", .TEXT, false, false⟩]⟩)
        [[⟨.INT, .vInt 1⟩, ⟨.TEXT, .vStr "a"⟩], [⟨.INT, .vInt 2⟩, ⟨.TEXT, .vStr "b"⟩]]).insert
          [⟨.INT, .vInt 1⟩, ⟨.TEXT, .vStr "c"⟩]).1.isSome = true
    ∧ ((insertAll
        (newTable ⟨"w", [⟨"id", .INT, true, false⟩, ⟨"name", .TEXT, false, false⟩]⟩)
        [[⟨.INT, .vInt 1⟩, ⟨.TEXT, .vStr "a"⟩], [⟨.INT, .vInt 2⟩, ⟨.TEXT, .vStr "b"⟩]]).insert
          [⟨.INT, .vInt 1⟩, ⟨.TEXT, .vStr "c"⟩]).2
        = insertAll
            (newTable ⟨"w", [⟨"id", .INT, true, false⟩, ⟨"name", .TEXT, false, false⟩]⟩)
            [[⟨.INT, .vInt 1⟩, ⟨.TEXT, .vStr "a"⟩], [⟨.INT, .vInt 2⟩, ⟨.TEXT, .vStr "b"⟩]] := by
  refine ⟨insert_pk_uniqueness.1 _ _, ?_, ?_⟩
  · exact (insert_pk_uniqueness.2.2 _ _ (GoVal.vInt 1) (by decide) (by decide)).1
  · exact (insert_pk_uniqueness.2.2 _ _ (GoVal.vInt 1) (by decide) (by decide)).2

/-! ### C8 and C10 — Table.Update: unique constraint, no type validation -/

/-- The unique-check loop passes when no unique non-primary value changed
its raw payload. -/
theorem updateUniqueCheck_none_of_unchanged
    (indices : List (String × HashIndex)) :
    ∀ l : List (ColumnDef × Value × Value),
      (∀ c nv ov, (c, nv, ov) ∈ l → c.isUnique = true → c.isPrimary = false →
        nv.val = ov.val) →
      updateUniqueCheck indices l = none := by
  intro l
  induction l with
  | nil => intro _; rfl
  | cons triple rest ih =>
    intro h
    obtain ⟨c, nv, ov⟩ := triple
    unfold updateUniqueCheck
    by_cases hu : c.isUnique && !c.isPrimary
    · rw [if_pos hu]
      simp only [Bool.and_eq_true, Bool.not_eq_true'] at hu
      have hval : nv.val = ov.val :=
        h c nv ov (List.mem_cons_self _ _) hu.1 hu.2
      rw [if_neg (by simpa using hval)]
      exact ih (fun c2 nv2 ov2 hm => h c2 nv2 ov2 (List.mem_cons_of_mem _ hm))
    · rw [if_neg hu]
      exact ih (fun c2 nv2 ov2 hm => h c2 nv2 ov2 (List.mem_cons_of_mem _ hm))

/-- The index-rewrite loop leaves the indices alone when no unique
non-primary value changed its raw payload. -/
theorem updateIndices_id_of_unchanged (pk : GoVal)
    (indices : List (String × HashIndex)) :
    ∀ l : List (ColumnDef × Value × Value),
      (∀ c nv ov, (c, nv, ov) ∈ l → c.isUnique = true → c.isPrimary = false →
        nv.val = ov.val) →
      updateIndices pk indices l = indices := by
  intro l
  induction l with
  | nil => intro _; rfl
  | cons triple rest ih =>
    intro h
    obtain ⟨c, nv, ov⟩ := triple
    unfold updateIndices
    by_cases hu : c.isUnique && !c.isPrimary
    · rw [if_pos hu]
      simp only [Bool.and_eq_true, Bool.not_eq_true'] at hu
      have hval : nv.val = ov.val :=
        h c nv ov (List.mem_cons_self _ _) hu.1 hu.2
      rw [if_neg (by simpa using hval)]
      exact ih (fun c2 nv2 ov2 hm => h c2 nv2 ov2 (List.mem_cons_of_mem _ hm))
    · rw [if_neg hu]
      exact ih (fun c2 nv2 ov2 hm => h c2 nv2 ov2 (List.mem_cons_of_mem _ hm))

/-- The unique-check loop fails when some unique non-primary triple changed
its payload to one the column's index already maps. -/
theorem updateUniqueCheck_isSome_of_collision
    (indices : List (String × HashIndex)) (c : ColumnDef) (nv ov : Value)
    (hi : HashIndex)
    (hcu : c.isUnique = true) (hcp : c.isPrimary = false)
    (hch : nv.val ≠ ov.val)
    (hidx : lookupA indices c.name = some hi)
    (hhit : (lookupA hi.data nv.val).isSome = true) :
    ∀ l : List (ColumnDef × Value × Value), (c, nv, ov) ∈ l →
      (updateUniqueCheck indices l).isSome = true := by
  intro l
  induction l with
  | nil => intro hm; cases hm
  | cons triple rest ih =>
    intro hm
    obtain ⟨c2, nv2, ov2⟩ := triple
    unfold updateUniqueCheck
    by_cases hu : c2.isUnique && !c2.isPrimary
    · rw [if_pos hu]
      by_cases hch2 : nv2.val ≠ ov2.val
      · rw [if_pos hch2]
        cases hidx2 : lookupA indices c2.name with
        | none => rfl
        | some hi2 =>
          dsimp only
          by_cases hhit2 : (hi2.get nv2).isSome = true
          · rw [if_pos hhit2]
            rfl
          · rw [if_neg hhit2]
            rcases List.mem_cons.mp hm with hhead | htail
            · exfalso
              cases hhead
              rw [hidx] at hidx2
              cases Option.some.inj hidx2
              exact hhit2 (by simpa [HashIndex.get] using hhit)
            · exact ih htail
      · rw [if_neg hch2]
        rcases List.mem_cons.mp hm with hhead | htail
        · exfalso
          apply hch2
          cases hhead
          exact hch
        · exact ih htail
    · rw [if_neg hu]
      rcases List.mem_cons.mp hm with hhead | htail
      · exfalso
        apply hu
        cases hhead
        simp [hcu, hcp]
      · exact ih htail

/-- Table.Update succeeds and overwrites the row in place — indices
untouched — whenever the row exists, the value count matches, the
primary-key cell keeps its payload and no unique non-primary cell changes
its payload.  No condition on the value's type tags appears anywhere:
Update performs no domain validation. -/
theorem update_success (t : Table) (pk : Value) (newValues : List Value)
    (oldRow : Row) (pkCol : ColumnDef) (pkIdx : Nat) (nvpk ovpk : Value)
    (hrow : lookupA t.rows pk.val = some oldRow)
    (hlen : newValues.length = t.tdef.columns.length)
    (hpk : t.tdef.getPrimaryKey = some pkCol)
    (hpkIdx : t.tdef.getColumnIndex pkCol.name = some pkIdx)
    (hnv : newValues.get? pkIdx = some nvpk)
    (hov : oldRow.values.get? pkIdx = some ovpk)
    (hpkeq : nvpk.val = ovpk.val)
    (huniq : ∀ c nv ov,
      (c, nv, ov) ∈ t.tdef.columns.zip (newValues.zip oldRow.values) →
      c.isUnique = true → c.isPrimary = false → nv.val = ov.val) :
    t.update pk newValues =
      (none, { t with rows := setA t.rows pk.val ⟨newValues⟩ }) := by
  unfold Table.update
  rw [hrow]
  dsimp only
  rw [if_neg (by omega)]
  rw [hpk]
  dsimp only
  rw [hpkIdx]
  dsimp only
  rw [hnv, hov]
  dsimp only
  rw [if_neg (by simpa using hpkeq)]
  rw [updateUniqueCheck_none_of_unchanged t.indices _ huniq]
  dsimp only
  rw [updateIndices_id_of_unchanged pk.val t.indices _ huniq]

/-- Table.Update fails when a unique non-primary column's value changes to
a payload some other live row already holds in that column, provided the
table's indices are complete for its rows (spec invariant (b)). -/
theorem update_unique_collision_fails
    (t : Table) (pk : Value) (newValues : List Value) (oldRow : Row)
    (i : Nat) (c : ColumnDef) (pk2 : GoVal) (row2 : Row) (v2 nv ov : Value)
    (hcomplete : indicesCompleteB t = true)
    (hrow : lookupA t.rows pk.val = some oldRow)
    (hc : t.tdef.columns.get? i = some c)
    (hcu : c.isUnique = true) (hcp : c.isPrimary = false)
    (hcolIdx : t.tdef.getColumnIndex c.name = some i)
    (hmem2 : (pk2, row2) ∈ t.rows) (_hpk2 : pk2 ≠ pk.val)
    (hv2 : row2.values.get? i = some v2)
    (hnv : newValues.get? i = some nv)
    (hveq : nv.val = v2.val)
    (hov : oldRow.values.get? i = some ov)
    (hch : nv.val ≠ ov.val) :
    (t.update pk newValues).1.isSome = true := by
  -- Extract the column's index and its coverage of row2.
  have hcmem : c ∈ t.tdef.columns := List.get?_mem hc
  have h1 := List.all_eq_true.mp hcomplete c hcmem
  have h2 : indexCoversB t c = true := by simpa [hcp, hcu] using h1
  unfold indexCoversB at h2
  cases hidx : lookupA t.indices c.name with
  | none => rw [hidx] at h2; cases h2
  | some hi =>
    rw [hidx] at h2
    dsimp only at h2
    have h3 := List.all_eq_true.mp h2 (pk2, row2) hmem2
    unfold cellIndexedB at h3
    rw [hcolIdx] at h3
    dsimp only at h3
    rw [hv2] at h3
    dsimp only at h3
    have hentry : lookupA hi.data v2.val = some pk2 := beq_iff_eq.mp h3
    have hhit : (lookupA hi.data nv.val).isSome = true := by
      rw [hveq, hentry]; rfl
    -- Walk Table.Update: every check either fails (some error) or reaches
    -- the unique-check loop, which the collision makes fail.
    unfold Table.update
    rw [hrow]
    dsimp only
    by_cases hlen : newValues.length ≠ t.tdef.columns.length
    · rw [if_pos hlen]; rfl
    · rw [if_neg hlen]
      cases hpk : t.tdef.getPrimaryKey with
      | none => rfl
      | some pkCol =>
        dsimp only
        cases hpkIdx : t.tdef.getColumnIndex pkCol.name with
        | none => rfl
        | some pkIdx =>
          dsimp only
          cases hnvpk : newValues.get? pkIdx with
          | none =>
            cases hovpk : oldRow.values.get? pkIdx <;> rfl
          | some nvpk =>
            cases hovpk : oldRow.values.get? pkIdx with
            | none => rfl
            | some ovpk =>
              dsimp only
              by_cases hpkch : nvpk.val ≠ ovpk.val
              · rw [if_pos hpkch]; rfl
              · rw [if_neg hpkch]
                have hmemtriple :
                    (c, nv, ov) ∈
                      t.tdef.columns.zip (newValues.zip oldRow.values) := by
                  apply List.get?_mem (n := i)
                  rw [List.get?_zip_eq_some]
                  refine ⟨hc, ?_⟩
                  rw [List.get?_zip_eq_some]
                  exact ⟨hnv, hov⟩
                have := updateUniqueCheck_isSome_of_collision t.indices c nv ov
                  hi hcu hcp hch hidx hhit _ hmemtriple
                cases hchk : updateUniqueCheck t.indices
                    (t.tdef.columns.zip (newValues.zip oldRow.values)) with
                | none => rw [hchk] at this; cases this
                | some e => rfl

/-- The type-validation loop of Insert fails whenever some value's type tag
disagrees with its column's declared type. -/
theorem typeCheckValues_isSome :
    ∀ (vals : List Value) (cols : List ColumnDef) (i : Nat) (c : ColumnDef)
      (v : Value),
      cols.get? i = some c → vals.get? i = some v → v.type ≠ c.type →
      (typeCheckValues cols vals).isSome = true := by
  intro vals
  induction vals with
  | nil => intro cols i c v _ hv _; cases i <;> cases hv
  | cons v0 vs ih =>
    intro cols i c v hc hv hty
    cases cols with
    | nil => rfl
    | cons c0 cs =>
      unfold typeCheckValues
      by_cases h0 : v0.type ≠ c0.type
      · rw [if_pos h0]; rfl
      · rw [if_neg h0]
        cases i with
        | zero =>
          exfalso
          apply h0
          cases Option.some.inj hc
          cases Option.some.inj hv
          exact hty
        | succ j => exact ih cs j c v hc hv hty

/-- Claim C8: (i) Table.Update that sets a unique non-primary column to a
payload already held by a different live row in that column fails, given
the table's indices are complete for its rows (spec invariant (b)); and
(ii) Table.Update that keeps every unique non-primary column at the row's
own current payload succeeds with no false conflict: the row is overwritten
at the same key and the indices — and with them the unique-index/row
correspondence — are left exactly as they were. -/
theorem update_unique_constraint :
    (∀ (t : Table) (pk : Value) (newValues : List Value) (oldRow : Row)
       (i : Nat) (c : ColumnDef) (pk2 : GoVal) (row2 : Row) (v2 nv ov : Value),
       indicesCompleteB t = true →
       lookupA t.rows pk.val = some oldRow →
       t.tdef.columns.get? i = some c →
       c.isUnique = true → c.isPrimary = false →
       t.tdef.getColumnIndex c.name = some i →
       (pk2, row2) ∈ t.rows → pk2 ≠ pk.val →
       row2.values.get? i = some v2 →
       newValues.get? i = some nv →
       nv.val = v2.val →
       oldRow.values.get? i = some ov →
       nv.val ≠ ov.val →
       (t.update pk newValues).1.isSome = true)
    ∧ (∀ (t : Table) (pk : Value) (newValues : List Value) (oldRow : Row)
       (pkCol : ColumnDef) (pkIdx : Nat) (nvpk ovpk : Value),
       lookupA t.rows pk.val = some oldRow →
       newValues.length = t.tdef.columns.length →
       t.tdef.getPrimaryKey = some pkCol →
       t.tdef.getColumnIndex pkCol.name = some pkIdx →
       newValues.get? pkIdx = some nvpk →
       oldRow.values.get? pkIdx = some ovpk →
       nvpk.val = ovpk.val →
       (∀ triple ∈ t.tdef.columns.zip (newValues.zip oldRow.values),
         triple.1.isUnique = true → triple.1.isPrimary = false →
         triple.2.1.val = triple.2.2.val) →
       t.update pk newValues =
         (none, { t with rows := setA t.rows pk.val ⟨newValues⟩ })) := by
  constructor
  · intro t pk newValues oldRow i c pk2 row2 v2 nv ov
      hcomplete hrow hc hcu hcp hcolIdx hmem2 hpk2 hv2 hnv hveq hov hch
    exact update_unique_collision_fails t pk newValues oldRow i c pk2 row2
      v2 nv ov hcomplete hrow hc hcu hcp hcolIdx hmem2 hpk2 hv2 hnv hveq
      hov hch
  · intro t pk newValues oldRow pkCol pkIdx nvpk ovpk
      hrow hlen hpk hpkIdx hnv hov hpkeq huniq
    exact update_success t pk newValues oldRow pkCol pkIdx nvpk ovpk hrow
      hlen hpk hpkIdx hnv hov hpkeq
      (fun c nv ov hm => huniq (c, nv, ov) hm)

/-- The two-column table of the C8/C10 witnesses: id INT PRIMARY KEY,
u INT UNIQUE, rows (1,10) and (2,20), indices complete. -/
def c8Table : Table :=
  { tdef := ⟨"t", [⟨"id", .INT, true, false⟩, ⟨"u", .INT, false, true⟩]⟩
    rows := [(.vInt 1, ⟨[⟨.INT, .vInt 1⟩, ⟨.INT, .vInt 10⟩]⟩),
             (.vInt 2, ⟨[⟨.INT, .vInt 2⟩, ⟨.INT, .vInt 20⟩]⟩)]
    indices := [("id", ⟨[(.vInt 1, .vInt 1), (.vInt 2, .vInt 2)]⟩),
                ("u", ⟨[(.vInt 10, .vInt 1), (.vInt 20, .vInt 2)]⟩)] }

/-- Witness for C8: setting row 1's u to 20 (row 2's value) fails; keeping
u at 10 succeeds and overwrites the row with the indices untouched. -/
theorem update_unique_constraint_witness :
    (c8Table.update ⟨.INT, .vInt 1⟩
        [⟨.INT, .vInt 1⟩, ⟨.INT, .vInt 20⟩]).1.isSome = true
    ∧ c8Table.update ⟨.INT, .vInt 1⟩ [⟨.INT, .vInt 1⟩, ⟨.INT, .vInt 10⟩]
        = (none, { c8Table with
            rows := setA c8Table.rows (GoVal.vInt 1)
              ⟨[⟨.INT, .vInt 1⟩, ⟨.INT, .vInt 10⟩]⟩ }) := by
  constructor
  · exact update_unique_constraint.1 c8Table ⟨.INT, .vInt 1⟩
      [⟨.INT, .vInt 1⟩, ⟨.INT, .vInt 20⟩]
      ⟨[⟨.INT, .vInt 1⟩, ⟨.INT, .vInt 10⟩]⟩ 1
      ⟨"u", .INT, false, true⟩ (.vInt 2)
      ⟨[⟨.INT, .vInt 2⟩, ⟨.INT, .vInt 20⟩]⟩
      ⟨.INT, .vInt 20⟩ ⟨.INT, .vInt 20⟩ ⟨.INT, .vInt 10⟩
      (by decide) (by decide) (by decide) (by decide) (by decide)
      (by decide) (by decide) (by decide) (by decide) (by decide)
      (by decide) (by decide) (by decide)
  · exact update_unique_constraint.2 c8Table ⟨.INT, .vInt 1⟩
      [⟨.INT, .vInt 1⟩, ⟨.INT, .vInt 10⟩]
      ⟨[⟨.INT, .vInt 1⟩, ⟨.INT, .vInt 10⟩]⟩
      ⟨"id", .INT, true, false⟩ 0 ⟨.INT, .vInt 1⟩ ⟨.INT, .vInt 1⟩
      (by decide) (by decide) (by decide) (by decide) (by decide)
      (by decide) (by decide) (by decide)

/-- Claim C10: (i) Table.Update performs no domain validation — under the
usual success conditions (row exists, matching count, unchanged primary-key
cell, no unique-column change) it succeeds and stores the values as given
even though some value's type tag disagrees with its column's declared
type; (ii) Table.Insert, by contrast, rejects any value whose type tag
disagrees with its column's declared type. -/
theorem update_no_type_validation :
    (∀ (t : Table) (pk : Value) (newValues : List Value) (oldRow : Row)
       (pkCol : ColumnDef) (pkIdx : Nat) (nvpk ovpk : Value)
       (i : Nat) (c : ColumnDef) (v : Value),
       lookupA t.rows pk.val = some oldRow →
       newValues.length = t.tdef.columns.length →
       t.tdef.getPrimaryKey = some pkCol →
       t.tdef.getColumnIndex pkCol.name = some pkIdx →
       newValues.get? pkIdx = some nvpk →
       oldRow.values.get? pkIdx = some ovpk →
       nvpk.val = ovpk.val →
       (∀ triple ∈ t.tdef.columns.zip (newValues.zip oldRow.values),
         triple.1.isUnique = true → triple.1.isPrimary = false →
         triple.2.1.val = triple.2.2.val) →
       t.tdef.columns.get? i = some c →
       newValues.get? i = some v →
       v.type ≠ c.type →
       t.update pk newValues =
         (none, { t with rows := setA t.rows pk.val ⟨newValues⟩ }))
    ∧ (∀ (t : Table) (values : List Value) (i : Nat) (c : ColumnDef)
       (v : Value),
       t.tdef.columns.get? i = some c →
       values.get? i = some v →
       v.type ≠ c.type →
       (t.insert values).1.isSome = true) := by
  constructor
  · intro t pk newValues oldRow pkCol pkIdx nvpk ovpk i c v
      hrow hlen hpk hpkIdx hnv hov hpkeq huniq _hc _hv _hty
    exact update_success t pk newValues oldRow pkCol pkIdx nvpk ovpk hrow
      hlen hpk hpkIdx hnv hov hpkeq
      (fun c2 nv2 ov2 hm => huniq (c2, nv2, ov2) hm)
  · intro t values i c v hc hv hty
    unfold Table.insert
    by_cases hlen : values.length ≠ t.tdef.columns.length
    · rw [if_pos hlen]; rfl
    · rw [if_neg hlen]
      have htc := typeCheckValues_isSome values t.tdef.columns i c v hc hv hty
      cases hchk : typeCheckValues t.tdef.columns values with
      | some e => rfl
      | none => rw [hchk] at htc; cases htc

/-- Witness for C10 on a table items(id INT PRIMARY KEY, name TEXT) holding
(1, "a"): updating row 1 to (INT 1, INT 5) — the name column is declared
TEXT — succeeds and stores the INT-tagged value as given, while inserting
(INT 2, INT 5) is rejected by Insert's type validation. -/
theorem update_no_type_validation_witness :
    (Table.update
        { tdef := ⟨"items", [⟨"id", .INT, true, false⟩,
                             ⟨"name", .TEXT, false, false⟩]⟩
          rows := [(.vInt 1, ⟨[⟨.INT, .vInt 1⟩, ⟨.TEXT, .vStr "a"⟩]⟩)]
          indices := [("id", ⟨[(.vInt 1, .vInt 1)]⟩)] }
        ⟨.INT, .vInt 1⟩ [⟨.INT, .vInt 1⟩, ⟨.INT, .vInt 5⟩]
      = (none,
         { tdef := ⟨"items", [⟨"id", .INT, true, false⟩,
                              ⟨"name", .TEXT, false, false⟩]⟩
           rows := setA [(.vInt 1, ⟨[⟨.INT, .vInt 1⟩, ⟨.TEXT, .vStr "a"⟩]⟩)]
             (GoVal.vInt 1) ⟨[⟨.INT, .vInt 1⟩, ⟨.INT, .vInt 5⟩]⟩
           indices := [("id", ⟨[(.vInt 1, .vInt 1)]⟩)] }))
    ∧ (Table.insert
        { tdef := ⟨"items", [⟨"id", .INT, true, false⟩,
                             ⟨"name", .TEXT, false, false⟩]⟩
          rows := [(.vInt 1, ⟨[⟨.INT, .vInt 1⟩, ⟨.TEXT, .vStr "a"⟩]⟩)]
          indices := [("id", ⟨[(.vInt 1, .vInt 1)]⟩)] }
        [⟨.INT, .vInt 2⟩, ⟨.INT, .vInt 5⟩]).1.isSome = true := by
  constructor
  · exact update_no_type_validation.1 _ ⟨.INT, .vInt 1⟩
      [⟨.INT, .vInt 1⟩, ⟨.INT, .vInt 5⟩]
      ⟨[⟨.INT, .vInt 1⟩, ⟨.TEXT, .vStr "a"⟩]⟩
      ⟨"id", .INT, true, false⟩ 0 ⟨.INT, .vInt 1⟩ ⟨.INT, .vInt 1⟩
      1 ⟨"name", .TEXT, false, false⟩ ⟨.INT, .vInt 5⟩
      (by decide) (by decide) (by decide) (by decide) (by decide)
      (by decide) (by decide) (by decide) (by decide) (by decide)
      (by decide)
  · exact update_no_type_validation.2 _
      [⟨.INT, .vInt 2⟩, ⟨.INT, .vInt 5⟩]
      1 ⟨"name", .TEXT, false, false⟩ ⟨.INT, .vInt 5⟩
      (by decide) (by decide) (by decide)

end MiniRDBMS
